import Mathlib

/-!
# Shallow embedding of the `PageFlip` page-turn engine

This file embeds the state machine of `PageFlip`
(`src/unnamed/part_000`, the 3D page-flip engine with drag support) as
pure Lean definitions and proves / refutes the frozen claims about it.

Modelling conventions:
* JavaScript numbers holding page counters are embedded as `Int`
  (`currentPage`, `totalPages`); pointer coordinates, drag progress and
  rotation angles as `ℚ`.
* `Math.floor(x / 2)` on an `Int` is `Int.fdiv x 2`.
* Array indexing `pages[i]` with a possibly out-of-range or negative
  index is `jsGet`, returning `Option`.
* Only the engine-state effects are modelled (page counters, per-spread
  rotation angle and z-index, drag session fields, emitted
  `onFlipStart` / `onFlipEnd` callbacks).  Pure-presentation effects
  (CSS transitions, shadow/curl overlay opacities, class names) have no
  bearing on any claim and are not part of the state.
* Each `async` method is modelled by its net effect once its animation
  completes (the transient `isFlipping := true` interval ends inside
  the call, so the net value is recorded).
-/

/-- A page content item handed to `loadPages`.  The engine accepts
HTML/markup strings, image-URL strings, `HTMLElement`s and
`HTMLCanvasElement`s.  JavaScript truthiness matters at one point
(`pageContents[i + 1] || null`), so the embedding keeps enough
structure to decide truthiness: a string is falsy iff empty, DOM
objects are always truthy. -/
inductive PageContent where
  | str (s : String)
  | elem (id : Nat)
  | canvas (id : Nat)
  deriving Repr, DecidableEq

/-- JavaScript truthiness of a `PageContent` value. -/
def PageContent.truthy : PageContent → Bool
  | .str s => s ≠ ""
  | .elem _ => true
  | .canvas _ => true

/-- `c || null` for an optional content (`none` models
`undefined`/`null`). -/
def truthyOrNull (c : Option PageContent) : Option PageContent :=
  match c with
  | some c => if c.truthy then some c else none
  | none => none

/-- Direction tag passed to the observer callbacks and stored in
`dragDirection` (the string values `'next' | 'prev' | 'goto'`). -/
inductive Dir where
  | next
  | prev
  | goto
  deriving Repr, DecidableEq

/-- One observer-callback emission.  The direction argument is
`Option Dir` because `_completeFlip` reads `this.dragDirection` after
`_cleanupDragPage` has already nulled it. -/
inductive Event where
  | flipStart (page : Int) (dir : Option Dir)
  | flipEnd (page : Int) (dir : Option Dir)
  deriving Repr, DecidableEq

/-- The engine-relevant state of one spread element created by
`_createSpread`: its two leaves, its current `rotateY` angle in
degrees, and its `z-index`. -/
structure Spread where
  left : PageContent
  right : Option PageContent
  rotation : ℚ
  zIndex : Int
  deriving Repr, DecidableEq

/-- The engine state: the fields of the `PageFlip` class object that
the state machine reads or writes. -/
structure FlipState where
  currentPage : Int
  totalPages : Int
  isFlipping : Bool
  pages : List Spread
  isDragging : Bool
  dragStartX : ℚ
  dragStartY : ℚ
  dragCurrentX : ℚ
  dragCurrentY : ℚ
  dragPageIdx : Option Int
  dragDirection : Option Dir
  dragProgress : ℚ
  deriving Repr, DecidableEq

/-- JavaScript array read `l[i]`: `undefined` (i.e. `none`) when the
index is negative or past the end. -/
def jsGet (l : List Spread) (i : Int) : Option Spread :=
  if 0 ≤ i then l.get? i.toNat else none

/-- Mutate the element of `l` whose position equals `idx` (models
holding a reference to `pages[idx]` and mutating its style); `i` is
the position of the head of `l`. -/
def updateAt (idx : Int) (f : Spread → Spread) : Int → List Spread → List Spread
  | _, [] => []
  | i, sp :: rest => (if i = idx then f sp else sp) :: updateAt idx f (i + 1) rest

/-- Apply `f` to the spread the engine field `dragPage` refers to
(no-op when `dragPage` is null). -/
def FlipState.setDragPage (st : FlipState) (f : Spread → Spread) : FlipState :=
  match st.dragPageIdx with
  | none => st
  | some idx => { st with pages := updateAt idx f 0 st.pages }

/-- The body of `_updatePageVisibility`'s `forEach`: assign rotation
and z-index to every spread from the current spread index `cur`;
`total` is `this.pages.length` and `i` the position of the head. -/
def settleSpreads (cur : Int) (total : Nat) : Int → List Spread → List Spread
  | _, [] => []
  | i, sp :: rest =>
      (if i = cur then { sp with rotation := 0, zIndex := 10 }
       else if i < cur then { sp with rotation := -180, zIndex := i }
       else { sp with rotation := 0, zIndex := (total : Int) - i }) ::
        settleSpreads cur total (i + 1) rest

/-- `_updatePageVisibility`: settle every spread's rotation and
z-index from `Math.floor(this.currentPage / 2)`. -/
def updatePageVisibility (st : FlipState) : FlipState :=
  let cur := st.currentPage.fdiv 2
  { st with pages := settleSpreads cur st.pages.length 0 st.pages }

/-- The spread-building loop of `loadPages`
(`for (let i = 0; i < pageContents.length; i += 2)`), pairing
consecutive contents; the right leaf is `pageContents[i + 1] || null`. -/
def mkSpreads : List PageContent → List Spread
  | [] => []
  | [a] => [⟨a, none, 0, 0⟩]
  | a :: b :: rest => ⟨a, truthyOrNull (some b), 0, 0⟩ :: mkSpreads rest

/-- `loadPages(pageContents)`: rebuild `pages`, set `totalPages` to
the content count, then `_updatePageVisibility()`.  (The source does
not touch `currentPage` here.) -/
def loadPages (st : FlipState) (contents : List PageContent) : FlipState :=
  updatePageVisibility
    { st with pages := mkSpreads contents, totalPages := (contents.length : Int) }

/-- `nextPage()`: reject while flipping or when no spread lies ahead;
otherwise raise the current spread, animate it from `0°` to `-180°`,
advance `currentPage` by 2 and settle.  `onFlipStart` fires with the
pre-increment `currentPage`; `onFlipEnd` with the post-increment one.
When `pages[currentSpread]` is `undefined` the `if (spread)` block is
skipped but both callbacks still fire and `true` is returned. -/
def nextPage (st : FlipState) : Bool × FlipState × List Event :=
  if st.isFlipping ∨ st.currentPage ≥ st.totalPages - 2 then (false, st, [])
  else
    let curSpread := st.currentPage.fdiv 2
    let evStart := Event.flipStart st.currentPage (some Dir.next)
    match jsGet st.pages curSpread with
    | some _ =>
        let st1 := { st with
          pages := updateAt curSpread
            (fun sp => { sp with zIndex := 100, rotation := -180 }) 0 st.pages }
        let st2 := updatePageVisibility { st1 with currentPage := st.currentPage + 2 }
        (true, { st2 with isFlipping := false },
          [evStart, Event.flipEnd (st.currentPage + 2) (some Dir.next)])
    | none =>
        (true, { st with isFlipping := false },
          [evStart, Event.flipEnd st.currentPage (some Dir.next)])

/-- `prevPage()`: reject while flipping or at the front; otherwise
decrement `currentPage` by 2 FIRST, then fire `onFlipStart` (with the
already-decremented value), animate the target spread from `-180°` to
`0°` and settle.  The `currentPage -= 2` happens before the
`if (spread)` check, so it sticks even when the spread is missing. -/
def prevPage (st : FlipState) : Bool × FlipState × List Event :=
  if st.isFlipping ∨ st.currentPage ≤ 0 then (false, st, [])
  else
    let cp : Int := st.currentPage - 2
    let curSpread := cp.fdiv 2
    let evStart := Event.flipStart cp (some Dir.prev)
    match jsGet st.pages curSpread with
    | some _ =>
        let st1 := { st with
          currentPage := cp
          pages := updateAt curSpread
            (fun sp => { sp with zIndex := 100, rotation := 0 }) 0 st.pages }
        let st2 := updatePageVisibility st1
        (true, { st2 with isFlipping := false },
          [evStart, Event.flipEnd cp (some Dir.prev)])
    | none =>
        (true, { st with currentPage := cp, isFlipping := false },
          [evStart, Event.flipEnd cp (some Dir.prev)])

/-- `goToPage(pageNumber)`: reject while flipping; clamp into
`[0, totalPages - 1]`, round down to an even number; success with no
change when already there, otherwise jump and settle.  Only
`onFlipEnd` fires, with direction `'goto'`. -/
def goToPage (st : FlipState) (pageNumber : Int) : Bool × FlipState × List Event :=
  if st.isFlipping then (false, st, [])
  else
    let p1 := max 0 (min pageNumber (st.totalPages - 1))
    let p2 := p1.fdiv 2 * 2
    if p2 = st.currentPage then (true, st, [])
    else
      let st1 := updatePageVisibility { st with currentPage := p2 }
      (true, st1, [Event.flipEnd p2 (some Dir.goto)])

/-- `_getFlippingPage(direction)`: the spread to turn — the current
spread for `'next'`, the one before it for `'prev'`. -/
def getFlippingPage (st : FlipState) (d : Dir) : Int :=
  match d with
  | Dir.next => st.currentPage.fdiv 2
  | _ => st.currentPage.fdiv 2 - 1

/-- `_startDrag(x, y, width, height)`: choose a direction from the
horizontal zone (rightmost 40% → `'next'` if a spread lies ahead,
leftmost 40% → `'prev'` if one lies behind, otherwise return).  Note
the source assigns `dragDirection` and `dragPage` before the
`if (!this.dragPage) return` bail-out, so those two fields are
mutated even when the grabbed spread is missing. -/
def startDrag (st : FlipState) (x y w _h : ℚ) : FlipState :=
  let pick : Option Dir :=
    if x > w * (6 / 10 : ℚ) ∧ st.currentPage < st.totalPages - 2 then some Dir.next
    else if x < w * (4 / 10 : ℚ) ∧ st.currentPage > 0 then some Dir.prev
    else none
  match pick with
  | none => st
  | some d =>
      let idx := getFlippingPage st d
      let st1 := { st with
        dragDirection := some d
        dragPageIdx := if (jsGet st.pages idx).isSome then some idx else none }
      match st1.dragPageIdx with
      | none => st1
      | some pidx =>
          let st2 := { st1 with
            isDragging := true
            dragStartX := x
            dragStartY := y
            dragCurrentX := x
            dragCurrentY := y
            dragProgress := 0 }
          { st2 with pages := updateAt pidx (fun sp => { sp with zIndex := 100 }) 0 st2.pages }

/-- `_applyCurlEffect(progress)`: rotate the dragged spread linearly
with progress (`'next'`: `0 → -180`, `'prev'`: `-180 → 0`). -/
def applyCurlEffect (st : FlipState) (progress : ℚ) : FlipState :=
  match st.dragPageIdx with
  | none => st
  | some idx =>
      let angle : ℚ :=
        if st.dragDirection = some Dir.next then -progress * 180
        else -180 + progress * 180
      { st with pages := updateAt idx (fun sp => { sp with rotation := angle }) 0 st.pages }

/-- `_updateDrag(x, y, width, height)`: record the pointer, derive
`progress = clamp(±deltaX / (width / 2), 0, 1)` and apply the curl. -/
def updateDrag (st : FlipState) (x y w _h : ℚ) : FlipState :=
  let st1 := { st with dragCurrentX := x, dragCurrentY := y }
  let deltaX := st1.dragCurrentX - st1.dragStartX
  let halfWidth := w / 2
  let prog : ℚ :=
    if st1.dragDirection = some Dir.next then
      max 0 (min 1 (-deltaX / halfWidth))
    else
      max 0 (min 1 (deltaX / halfWidth))
  applyCurlEffect { st1 with dragProgress := prog } prog

/-- `_cleanupDragPage()`: drop the `dragPage` reference and null the
session direction and progress. -/
def cleanupDragPage (st : FlipState) : FlipState :=
  { st with dragPageIdx := none, dragDirection := none, dragProgress := 0 }

/-- `_completeFlip()`: no-op when `dragPage` is null; otherwise fire
`onFlipStart` with the pre-update `currentPage`, animate the dragged
spread to its opposite rest angle, shift `currentPage` by ±2, clean
the session up, settle, clear `isFlipping` and fire `onFlipEnd` — the
direction argument of `onFlipEnd` is `this.dragDirection`, already
nulled by `_cleanupDragPage`. -/
def completeFlip (st : FlipState) : FlipState × List Event :=
  match st.dragPageIdx with
  | none => (st, [])
  | some idx =>
      let evStart := Event.flipStart st.currentPage st.dragDirection
      let targetAngle : ℚ := if st.dragDirection = some Dir.next then -180 else 0
      let st1 := { st with
        pages := updateAt idx (fun sp => { sp with rotation := targetAngle }) 0 st.pages }
      let cp : Int :=
        if st.dragDirection = some Dir.next then st.currentPage + 2 else st.currentPage - 2
      let st2 := cleanupDragPage { st1 with currentPage := cp }
      let st3 := updatePageVisibility st2
      ({ st3 with isFlipping := false }, [evStart, Event.flipEnd cp none])

/-- `_cancelFlip()`: no-op when `dragPage` is null; otherwise animate
the dragged spread back to its original rest angle, clean the session
up and settle.  No callbacks fire and `isFlipping` is untouched. -/
def cancelFlip (st : FlipState) : FlipState :=
  match st.dragPageIdx with
  | none => st
  | some idx =>
      let targetAngle : ℚ := if st.dragDirection = some Dir.next then 0 else -180
      let st1 := { st with
        pages := updateAt idx (fun sp => { sp with rotation := targetAngle }) 0 st.pages }
      updatePageVisibility (cleanupDragPage st1)

/-- `_endDrag()`: guarded on `isDragging`; commit when
`dragProgress > 0.3`, otherwise cancel, then clear `isDragging`. -/
def endDrag (st : FlipState) : FlipState × List Event :=
  if st.isDragging = false then (st, [])
  else
    let r :=
      if st.dragProgress > (3 / 10 : ℚ) then completeFlip st
      else (cancelFlip st, [])
    ({ r.1 with isDragging := false }, r.2)

/-- The pointer-down handler (`_handleMouseDown` / `_handleTouchStart`):
bails out while `isFlipping`, else starts a drag from the surface-local
coordinates. -/
def handlePointerDown (st : FlipState) (x y w h : ℚ) : FlipState :=
  if st.isFlipping then st else startDrag st x y w h

/-- The pointer-move handler: bails out unless `isDragging`. -/
def handlePointerMove (st : FlipState) (x y w h : ℚ) : FlipState :=
  if st.isDragging = false then st else updateDrag st x y w h

/-- The pointer-up handler: bails out unless `isDragging`, else ends
the drag. -/
def handlePointerUp (st : FlipState) : FlipState × List Event :=
  if st.isDragging = false then (st, []) else endDrag st

/-- Concrete six-leaf content sequence used by witnesses and
counterexamples. -/
def demo6 : List PageContent :=
  [.str "a", .str "b", .str "c", .str "d", .str "e", .str "f"]

/-- Concrete 24-leaf content sequence (12 spreads). -/
def demo24 : List PageContent := (List.range 24).map (fun i => .elem i)

/-- The field initialisation performed by the constructor. -/
def initialState : FlipState :=
  { currentPage := 0
    totalPages := 0
    isFlipping := false
    pages := []
    isDragging := false
    dragStartX := 0
    dragStartY := 0
    dragCurrentX := 0
    dragCurrentY := 0
    dragPageIdx := none
    dragDirection := none
    dragProgress := 0 }

/-! ## Helper lemmas -/

lemma fdiv_two (a : Int) : a.fdiv 2 = a / 2 := Int.fdiv_eq_ediv a (by norm_num)

lemma settleSpreads_length (cur : Int) (total : Nat) (i : Int) (l : List Spread) :
    (settleSpreads cur total i l).length = l.length := by
  induction l generalizing i with
  | nil => rfl
  | cons sp rest ih => simp [settleSpreads, ih]

lemma settleSpreads_get (cur : Int) (total : Nat) (i : Int) (l : List Spread) (k : Nat) :
    (settleSpreads cur total i l).get? k = (l.get? k).map (fun sp =>
      if i + k = cur then { sp with rotation := 0, zIndex := 10 }
      else if i + k < cur then { sp with rotation := -180, zIndex := i + k }
      else { sp with rotation := 0, zIndex := (total : Int) - (i + k) }) := by
  induction l generalizing i k with
  | nil => simp [settleSpreads]
  | cons sp rest ih =>
    cases k with
    | zero => simp [settleSpreads]
    | succ k =>
      simp only [settleSpreads, List.get?_cons_succ, ih (i + 1) k]
      have : i + 1 + (k : Int) = i + (k + 1 : Nat) := by push_cast; ring
      rw [this]

lemma updateAt_length (idx : Int) (f : Spread → Spread) (i : Int) (l : List Spread) :
    (updateAt idx f i l).length = l.length := by
  induction l generalizing i with
  | nil => rfl
  | cons sp rest ih => simp [updateAt, ih]

lemma updatePageVisibility_length (st : FlipState) :
    (updatePageVisibility st).pages.length = st.pages.length := by
  simp [updatePageVisibility, settleSpreads_length]

lemma updatePageVisibility_scalars (st : FlipState) :
    (updatePageVisibility st).currentPage = st.currentPage ∧
    (updatePageVisibility st).totalPages = st.totalPages ∧
    (updatePageVisibility st).isFlipping = st.isFlipping := by
  simp [updatePageVisibility]

lemma mkSpreads_length (c : List PageContent) :
    (mkSpreads c).length = (c.length + 1) / 2 := by
  induction c using mkSpreads.induct with
  | case1 => simp [mkSpreads]
  | case2 a => simp [mkSpreads]
  | case3 a b rest ih => simp [mkSpreads, ih]; omega

lemma mkSpreads_get (c : List PageContent) (k : Nat) :
    (mkSpreads c).get? k =
      (c.get? (2 * k)).map
        (fun x => ⟨x, truthyOrNull (c.get? (2 * k + 1)), 0, 0⟩) := by
  induction c using mkSpreads.induct generalizing k with
  | case1 => simp [mkSpreads]
  | case2 a =>
    cases k with
    | zero => simp [mkSpreads, truthyOrNull]
    | succ k =>
      have h1 : 2 * (k + 1) = (2 * k + 1) + 1 := by omega
      simp [mkSpreads, h1]
  | case3 a b rest ih =>
    cases k with
    | zero => simp [mkSpreads]
    | succ k =>
      have h1 : 2 * (k + 1) = (2 * k) + 1 + 1 := by omega
      have h2 : 2 * (k + 1) + 1 = (2 * k + 1) + 1 + 1 := by omega
      simp only [mkSpreads, List.get?_cons_succ, ih k, h1, h2]

lemma updateAt_get (idx : Int) (f : Spread → Spread) (i : Int) (l : List Spread) (k : Nat) :
    (updateAt idx f i l).get? k =
      (l.get? k).map (fun sp => if i + k = idx then f sp else sp) := by
  induction l generalizing i k with
  | nil => simp [updateAt]
  | cons sp rest ih =>
    cases k with
    | zero => simp [updateAt]
    | succ k =>
      simp only [updateAt, List.get?_cons_succ, ih (i + 1) k]
      have : i + 1 + (k : Int) = i + (k + 1 : Nat) := by push_cast; ring
      rw [this]

lemma jsGet_eq_some (l : List Spread) (i : Int) (h0 : 0 ≤ i) (h : i.toNat < l.length) :
    jsGet l i = some (l.get ⟨i.toNat, h⟩) := by
  simp [jsGet, h0, List.get?_eq_get h]

lemma nextPage_rejected (s : FlipState)
    (h : s.isFlipping = true ∨ s.totalPages - 2 ≤ s.currentPage) :
    nextPage s = (false, s, []) := by
  unfold nextPage
  rcases h with h | h <;> simp [h, ge_iff_le]

lemma nextPage_accepted (s : FlipState)
    (h1 : s.isFlipping = false) (h2 : s.currentPage < s.totalPages - 2)
    (h0 : 0 ≤ s.currentPage)
    (h3 : (s.currentPage.fdiv 2).toNat < s.pages.length) :
    (nextPage s).1 = true ∧
    (nextPage s).2.1.currentPage = s.currentPage + 2 ∧
    (nextPage s).2.1.isFlipping = false ∧
    (nextPage s).2.1.totalPages = s.totalPages ∧
    (nextPage s).2.1.pages.length = s.pages.length ∧
    (nextPage s).2.2 = [Event.flipStart s.currentPage (some Dir.next),
      Event.flipEnd (s.currentPage + 2) (some Dir.next)] := by
  have hidx0 : 0 ≤ s.currentPage.fdiv 2 := by
    rw [fdiv_two]; omega
  have hj := jsGet_eq_some s.pages (s.currentPage.fdiv 2) hidx0 h3
  unfold nextPage
  simp only [h1, h2.not_le, ge_iff_le, or_self, if_false, hj, false_or, if_neg,
    not_le.mpr h2]
  simp [updatePageVisibility, settleSpreads_length, updateAt_length]

lemma prevPage_rejected (s : FlipState)
    (h : s.isFlipping = true ∨ s.currentPage ≤ 0) :
    prevPage s = (false, s, []) := by
  unfold prevPage
  rcases h with h | h <;> simp [h]

lemma prevPage_accepted (s : FlipState)
    (h1 : s.isFlipping = false) (h2 : 0 < s.currentPage) :
    (prevPage s).1 = true ∧
    (prevPage s).2.1.currentPage = s.currentPage - 2 ∧
    (prevPage s).2.1.isFlipping = false ∧
    (prevPage s).2.1.totalPages = s.totalPages ∧
    (prevPage s).2.1.pages.length = s.pages.length ∧
    (prevPage s).2.2 = [Event.flipStart (s.currentPage - 2) (some Dir.prev),
      Event.flipEnd (s.currentPage - 2) (some Dir.prev)] := by
  unfold prevPage
  simp only [h1, h2.not_le, or_self, if_false, false_or, if_neg]
  cases hj : jsGet s.pages ((s.currentPage - 2).fdiv 2) with
  | none => simp [hj]
  | some sp =>
    simp [hj, updatePageVisibility, settleSpreads_length, updateAt_length]

/-! ## Claims -/

/-- C1 (counterexample): rebuilding with `loadPages` does NOT reset
`currentSpreadIndex` to 0 — after navigating to leaf 2 and rebuilding
with the same six leaves, `currentPage` is still 2. -/
theorem C1_counterexample :
    (loadPages ((goToPage (loadPages initialState demo6) 2).2.1) demo6).currentPage = 2 ∧
    (loadPages ((goToPage (loadPages initialState demo6) 2).2.1) demo6).currentPage ≠ 0 := by
  decide

/-- C1 (amended): rebuilding the model with `loadPages` PRESERVES the
previous reading position — `currentPage` (hence `currentSpreadIndex`)
is left untouched — while the spreads themselves are rebuilt from
scratch (all prior rotation/animation state is discarded: the new
spread list is the freshly built one, settled from the preserved
position) and `totalPages` becomes the new content count. -/
theorem C1_loadPages_keeps_position (s : FlipState) (c : List PageContent) :
    (loadPages s c).currentPage = s.currentPage ∧
    (loadPages s c).totalPages = (c.length : Int) ∧
    (loadPages s c).pages =
      settleSpreads (s.currentPage.fdiv 2) (mkSpreads c).length 0 (mkSpreads c) := by
  exact ⟨rfl, rfl, rfl⟩

/-- C2 (counterexample): after building with zero leaves the
total-page count is 0, but `goToPage 5` is NOT rejected: it returns
`true` (the target clamps to leaf 0, where the fresh engine already
is). -/
theorem C2_counterexample :
    (loadPages initialState []).totalPages = 0 ∧
    (goToPage (loadPages initialState []) 5).1 = true := by
  decide

/-- C2 (amended): after building the model with an empty content
sequence, the total-page count reports 0 and `nextPage` is always
rejected; `prevPage` is rejected only when `currentPage` is 0 — with a
stale positive reading position it returns `true` and still decrements
`currentPage` by 2 — and `goToPage` returns `true` for every argument
(the target clamps to leaf 0: a no-op when already there, otherwise a
jump to 0). -/
theorem C2_empty_build (s : FlipState) (p : Int)
    (h0 : 0 ≤ s.currentPage) (hf : s.isFlipping = false) :
    (loadPages s []).totalPages = 0 ∧
    nextPage (loadPages s []) = (false, loadPages s [], []) ∧
    (s.currentPage = 0 → prevPage (loadPages s []) = (false, loadPages s [], [])) ∧
    (0 < s.currentPage → (prevPage (loadPages s [])).1 = true ∧
      (prevPage (loadPages s [])).2.1.currentPage = s.currentPage - 2) ∧
    (goToPage (loadPages s []) p).1 = true := by
  have hcp : (loadPages s []).currentPage = s.currentPage := rfl
  have htp : (loadPages s []).totalPages = 0 := rfl
  have hpg : (loadPages s []).pages = [] := rfl
  have hfl : (loadPages s []).isFlipping = s.isFlipping := rfl
  refine ⟨htp, ?_, ?_, ?_, ?_⟩
  · exact nextPage_rejected _ (Or.inr (by rw [hcp, htp]; omega))
  · intro hz
    exact prevPage_rejected _ (Or.inr (by rw [hcp]; omega))
  · intro hpos
    have h := prevPage_accepted (loadPages s []) (by rw [hfl, hf]) (by rw [hcp]; exact hpos)
    exact ⟨h.1, by rw [h.2.1, hcp]⟩
  · unfold goToPage
    rw [hfl, hf]
    simp only [Bool.false_eq_true, if_false]
    split <;> rfl

/-- C2 (witness): the amended statement evaluated on the fresh engine
rebuilt with zero leaves and the request `goToPage 7`. -/
theorem C2_witness :
    (loadPages initialState []).totalPages = 0 ∧
    (goToPage (loadPages initialState []) 7).1 = true := by
  have h := C2_empty_build initialState 7 (by decide) (by decide)
  exact ⟨h.1, h.2.2.2.2⟩

/-- C3 (counterexample): a transition being "in flight" by way of an
active drag gesture does NOT reject navigation — with a drag started
in the right zone of a six-leaf book (so `isDragging = true`),
`nextPage` is accepted and moves `currentPage` from 0 to 2. -/
theorem C3_counterexample :
    (handlePointerDown (loadPages initialState demo6) 90 50 100 100).isDragging = true ∧
    (nextPage (handlePointerDown (loadPages initialState demo6) 90 50 100 100)).1 = true ∧
    (nextPage (handlePointerDown (loadPages initialState demo6) 90 50 100 100)).2.1.currentPage
      = 2 := by
  norm_num [handlePointerDown, loadPages, initialState, demo6, mkSpreads, updatePageVisibility,
    settleSpreads, startDrag, getFlippingPage, jsGet, truthyOrNull, PageContent.truthy,
    updateAt, nextPage]

/-- C3 (amended): only a discrete flip animation blocks navigation:
while `isFlipping` is true, `nextPage`, `prevPage` and `goToPage` all
return `false` with the state unchanged and no callback fired, and a
pointer-down (`Begin`) is ignored entirely; an active drag gesture
(`isDragging` true, `isFlipping` false) does not cause new
`nextPage`/`prevPage`/`goToPage` requests to be rejected. -/
theorem C3_flipping_rejects (s : FlipState) (p : Int) (x y w h : ℚ)
    (hf : s.isFlipping = true) :
    nextPage s = (false, s, []) ∧
    prevPage s = (false, s, []) ∧
    goToPage s p = (false, s, []) ∧
    handlePointerDown s x y w h = s := by
  refine ⟨nextPage_rejected s (Or.inl hf), prevPage_rejected s (Or.inl hf), ?_, ?_⟩
  · unfold goToPage
    rw [hf]
    simp
  · unfold handlePointerDown
    rw [hf]
    simp

/-- C3 (witness): the amended statement evaluated on the fresh engine
with `isFlipping` forced on. -/
theorem C3_witness :
    nextPage { initialState with isFlipping := true } =
      (false, { initialState with isFlipping := true }, []) ∧
    goToPage { initialState with isFlipping := true } 4 =
      (false, { initialState with isFlipping := true }, []) := by
  have h := C3_flipping_rejects { initialState with isFlipping := true } 4 1 2 3 4 rfl
  exact ⟨h.1, h.2.2.1⟩

/-- C4 (counterexample): from `currentPage = 2`, an accepted
`prevPage` fires `onFlipStart` with index 0 — the POST-turn index, not
the pre-turn index 2 the claim requires. -/
theorem C4_counterexample :
    (goToPage (loadPages initialState demo6) 2).2.1.currentPage = 2 ∧
    (prevPage ((goToPage (loadPages initialState demo6) 2).2.1)).1 = true ∧
    (prevPage ((goToPage (loadPages initialState demo6) 2).2.1)).2.2 =
      [Event.flipStart 0 (some Dir.prev), Event.flipEnd 0 (some Dir.prev)] := by
  decide

/-- C4 (amended): in a state whose current spread exists, an accepted
`nextPage` fires `onFlipStart` once with the pre-turn leaf index and
`onFlipEnd` once with the post-turn index; an accepted `prevPage`
decrements `currentPage` BEFORE firing, so both `onFlipStart` and
`onFlipEnd` carry the post-turn index; a rejected call fires
neither. -/
theorem C4_callback_indices (s : FlipState) (hf : s.isFlipping = false)
    (h0 : 0 ≤ s.currentPage)
    (h3 : (s.currentPage.fdiv 2).toNat < s.pages.length) :
    (s.currentPage < s.totalPages - 2 →
      (nextPage s).2.2 = [Event.flipStart s.currentPage (some Dir.next),
        Event.flipEnd (s.currentPage + 2) (some Dir.next)] ∧
      (nextPage s).2.1.currentPage = s.currentPage + 2) ∧
    (0 < s.currentPage →
      (prevPage s).2.2 = [Event.flipStart (s.currentPage - 2) (some Dir.prev),
        Event.flipEnd (s.currentPage - 2) (some Dir.prev)] ∧
      (prevPage s).2.1.currentPage = s.currentPage - 2) ∧
    (s.totalPages - 2 ≤ s.currentPage → (nextPage s).2.2 = []) ∧
    (s.currentPage ≤ 0 → (prevPage s).2.2 = []) := by
  refine ⟨?_, ?_, ?_, ?_⟩
  · intro hacc
    have h := nextPage_accepted s hf hacc h0 h3
    exact ⟨h.2.2.2.2.2, h.2.1⟩
  · intro hacc
    have h := prevPage_accepted s hf hacc
    exact ⟨h.2.2.2.2.2, h.2.1⟩
  · intro hrej
    rw [nextPage_rejected s (Or.inr hrej)]
  · intro hrej
    rw [prevPage_rejected s (Or.inr hrej)]

/-- C4 (witness): the amended statement evaluated on the freshly
loaded six-leaf book, where `nextPage` is accepted. -/
theorem C4_witness :
    (nextPage (loadPages initialState demo6)).2.2 =
      [Event.flipStart 0 (some Dir.next), Event.flipEnd 2 (some Dir.next)] := by
  have h := C4_callback_indices (loadPages initialState demo6) (by decide) (by decide)
    (by decide)
  exact (h.1 (by decide)).1.trans (by decide)

/-- C5 (counterexample): in the settled fresh 24-leaf book (12
spreads, `currentSpreadIndex = 0`) the current spread's z-index is 10
while the next upcoming spread gets `12 - 1 = 11`: the current spread
does NOT have the highest stacking priority. -/
theorem C5_counterexample :
    (loadPages initialState demo24).currentPage = 0 ∧
    (jsGet (loadPages initialState demo24).pages 0).map Spread.zIndex = some 10 ∧
    (jsGet (loadPages initialState demo24).pages 1).map Spread.zIndex = some 11 := by
  decide

/-- C5 (amended): settling assigns: the spread at
`currentSpreadIndex` rotation `0°` and the FIXED z-index 10 (not
necessarily the highest: an upcoming spread's z-index `count − i` can
exceed it); spreads before it rotation `-180°` with z-index equal to
their index, so earlier-turned spreads stack below later-turned ones;
spreads after it rotation `0°` with z-index `count − i`, so
nearer-upcoming spreads stack above farther ones. -/
theorem C5_settle_stacking (st : FlipState) :
    (∀ (k : Nat) (sp : Spread), st.pages.get? k = some sp →
      (updatePageVisibility st).pages.get? k = some (
        if (k : Int) = st.currentPage.fdiv 2 then { sp with rotation := 0, zIndex := 10 }
        else if (k : Int) < st.currentPage.fdiv 2 then
          { sp with rotation := -180, zIndex := (k : Int) }
        else { sp with rotation := 0, zIndex := (st.pages.length : Int) - (k : Int) })) ∧
    (∀ j k : Nat, j < k → (k : Int) < st.currentPage.fdiv 2 → k < st.pages.length →
      ∃ zj zk : Int,
        ((updatePageVisibility st).pages.get? j).map Spread.zIndex = some zj ∧
        ((updatePageVisibility st).pages.get? k).map Spread.zIndex = some zk ∧ zj < zk) ∧
    (∀ j k : Nat, j < k → st.currentPage.fdiv 2 < (j : Int) → k < st.pages.length →
      ∃ zj zk : Int,
        ((updatePageVisibility st).pages.get? j).map Spread.zIndex = some zj ∧
        ((updatePageVisibility st).pages.get? k).map Spread.zIndex = some zk ∧ zk < zj) := by
  have hchar : ∀ (k : Nat) (sp : Spread), st.pages.get? k = some sp →
      (updatePageVisibility st).pages.get? k = some (
        if (k : Int) = st.currentPage.fdiv 2 then { sp with rotation := 0, zIndex := 10 }
        else if (k : Int) < st.currentPage.fdiv 2 then
          { sp with rotation := -180, zIndex := (k : Int) }
        else { sp with rotation := 0, zIndex := (st.pages.length : Int) - (k : Int) }) := by
    intro k sp hk
    unfold updatePageVisibility
    simp only [settleSpreads_get, hk, zero_add]
    rfl
  refine ⟨hchar, ?_, ?_⟩
  · intro j k hjk hkcur hklen
    have hjlen : j < st.pages.length := lt_trans hjk hklen
    obtain ⟨spj, hj⟩ : ∃ x, st.pages.get? j = some x := ⟨_, List.get?_eq_get hjlen⟩
    obtain ⟨spk, hk⟩ : ∃ x, st.pages.get? k = some x := ⟨_, List.get?_eq_get hklen⟩
    have hjcur : (j : Int) < st.currentPage.fdiv 2 := by
      have : (j : Int) < (k : Int) := by exact_mod_cast hjk
      omega
    refine ⟨j, k, ?_, ?_, by exact_mod_cast hjk⟩
    · rw [hchar j spj hj, if_neg (by omega), if_pos hjcur]
      rfl
    · rw [hchar k spk hk, if_neg (by omega), if_pos hkcur]
      rfl
  · intro j k hjk hcurj hklen
    have hjlen : j < st.pages.length := lt_trans hjk hklen
    obtain ⟨spj, hj⟩ : ∃ x, st.pages.get? j = some x := ⟨_, List.get?_eq_get hjlen⟩
    obtain ⟨spk, hk⟩ : ∃ x, st.pages.get? k = some x := ⟨_, List.get?_eq_get hklen⟩
    have hjk' : (j : Int) < (k : Int) := by exact_mod_cast hjk
    refine ⟨(st.pages.length : Int) - j, (st.pages.length : Int) - k, ?_, ?_, by omega⟩
    · rw [hchar j spj hj, if_neg (by omega), if_neg (by omega)]
      rfl
    · rw [hchar k spk hk, if_neg (by omega), if_neg (by omega)]
      rfl

/-- C5 (witness): the amended characterization evaluated on the fresh
24-leaf book at spread index 1, whose settled z-index is `12 - 1 = 11`
while the current spread keeps 10. -/
theorem C5_witness :
    (updatePageVisibility (loadPages initialState demo24)).pages.get? 1 =
      some { left := .elem 2, right := some (.elem 3), rotation := 0, zIndex := 11 } := by
  have h := (C5_settle_stacking (loadPages initialState demo24)).1 1
    { left := .elem 2, right := some (.elem 3), rotation := 0, zIndex := 11 } (by decide)
  exact h.trans (by decide)

/-- Concrete five-leaf content sequence (three spreads, odd count). -/
def demo5 : List PageContent := [.str "a", .str "b", .str "c", .str "d", .str "e"]

lemma truthyOrNull_of_all_truthy (c : List PageContent)
    (hT : ∀ x ∈ c, x.truthy = true) (k : Nat) :
    truthyOrNull (c.get? k) = c.get? k := by
  cases h : c.get? k with
  | none => rfl
  | some x =>
    have hx : x ∈ c := List.get?_mem h
    simp [truthyOrNull, hT x hx]

/-- C6 (counterexample): with the two-leaf sequence `["a", ""]` (even
length), `pageContents[1] || null` coerces the falsy empty string to
`null`, so the single spread built holds only one leaf — refuting
"the last spread holds a single leaf iff N is odd". -/
theorem C6_counterexample :
    ([PageContent.str "a", PageContent.str ""].length % 2 = 0) ∧
    mkSpreads [PageContent.str "a", PageContent.str ""] =
      [{ left := PageContent.str "a", right := none, rotation := 0, zIndex := 0 }] := by
  decide

/-- C6 (amended): for every content sequence of length `N ≥ 1` whose
entries are all truthy (non-empty strings / DOM objects), `loadPages`
builds exactly `⌈N/2⌉` spreads, spread `k` pairs the consecutive
leaves `2k` and `2k+1` in order, and the last spread holds a single
leaf iff `N` is odd.  (A falsy entry in an odd position is coerced to
`null` by `pageContents[i+1] || null` and also yields a single-leaf
spread, which is why truthiness must be assumed.) -/
theorem C6_build_pairs (c : List PageContent)
    (hT : ∀ x ∈ c, x.truthy = true) (hN : 1 ≤ c.length) :
    (mkSpreads c).length = (c.length + 1) / 2 ∧
    (∀ k : Nat, (mkSpreads c).get? k =
      (c.get? (2 * k)).map (fun x => ⟨x, c.get? (2 * k + 1), 0, 0⟩)) ∧
    (((mkSpreads c).get? ((mkSpreads c).length - 1)).map Spread.right = some none
      ↔ c.length % 2 = 1) := by
  have hpair : ∀ k : Nat, (mkSpreads c).get? k =
      (c.get? (2 * k)).map (fun x => ⟨x, c.get? (2 * k + 1), 0, 0⟩) := by
    intro k
    rw [mkSpreads_get, truthyOrNull_of_all_truthy c hT]
  refine ⟨mkSpreads_length c, hpair, ?_⟩
  rw [mkSpreads_length, hpair ((c.length + 1) / 2 - 1)]
  have h2m : 2 * ((c.length + 1) / 2 - 1) < c.length := by omega
  obtain ⟨x, hx⟩ : ∃ x, c.get? (2 * ((c.length + 1) / 2 - 1)) = some x :=
    ⟨_, List.get?_eq_get h2m⟩
  rw [hx]
  show some (Spread.right ⟨x, _, 0, 0⟩) = some none ↔ _
  simp only [Option.some.injEq]
  show c.get? (2 * ((c.length + 1) / 2 - 1) + 1) = none ↔ _
  rw [List.get?_eq_none]
  omega

/-- C6 (witness): the amended statement evaluated on the five-leaf
sequence: three spreads, spread 1 pairs leaves "c" and "d", and the
last spread is single-leafed since 5 is odd. -/
theorem C6_witness :
    (mkSpreads demo5).length = 3 ∧
    (mkSpreads demo5).get? 1 =
      some (Spread.mk (PageContent.str "c") (some (PageContent.str "d")) 0 0) := by
  have h := C6_build_pairs demo5 (by decide) (by decide)
  exact ⟨h.1.trans (by decide), (h.2.1 1).trans (by decide)⟩

/-- C7: from any well-formed idle state (spread list consistent with
`totalPages`, even non-negative `currentPage`), an accepted
`nextPage` followed by `prevPage` (which is then automatically
accepted) returns `currentPage` to its original value; and an
accepted `prevPage` followed by an accepted `nextPage` does
likewise. -/
theorem C7_advance_roundtrip (s : FlipState)
    (hwf : s.pages.length = (s.totalPages.toNat + 1) / 2)
    (heven : s.currentPage % 2 = 0) (h0 : 0 ≤ s.currentPage)
    (htp : 0 ≤ s.totalPages) :
    ((nextPage s).1 = true →
      (prevPage (nextPage s).2.1).1 = true ∧
      (prevPage (nextPage s).2.1).2.1.currentPage = s.currentPage) ∧
    ((prevPage s).1 = true → (nextPage (prevPage s).2.1).1 = true →
      (nextPage (prevPage s).2.1).2.1.currentPage = s.currentPage) := by
  constructor
  · intro hn
    have hf : s.isFlipping = false := by
      cases hsf : s.isFlipping with
      | false => rfl
      | true => rw [nextPage_rejected s (Or.inl hsf)] at hn; exact absurd hn (by simp)
    have hacc : s.currentPage < s.totalPages - 2 := by
      by_contra hb
      push_neg at hb
      rw [nextPage_rejected s (Or.inr hb)] at hn
      exact absurd hn (by simp)
    have h3 : (s.currentPage.fdiv 2).toNat < s.pages.length := by
      rw [fdiv_two, hwf]; omega
    have h := nextPage_accepted s hf hacc h0 h3
    have hp := prevPage_accepted (nextPage s).2.1 h.2.2.1 (by rw [h.2.1]; omega)
    refine ⟨hp.1, ?_⟩
    rw [hp.2.1, h.2.1]
    omega
  · intro hp hn2
    have hf : s.isFlipping = false := by
      cases hsf : s.isFlipping with
      | false => rfl
      | true => rw [prevPage_rejected s (Or.inl hsf)] at hp; exact absurd hp (by simp)
    have hpos : 0 < s.currentPage := by
      by_contra hb
      push_neg at hb
      rw [prevPage_rejected s (Or.inr hb)] at hp
      exact absurd hp (by simp)
    have h := prevPage_accepted s hf hpos
    have hacc2 : (prevPage s).2.1.currentPage < (prevPage s).2.1.totalPages - 2 := by
      by_contra hb
      push_neg at hb
      rw [nextPage_rejected _ (Or.inr hb)] at hn2
      exact absurd hn2 (by simp)
    have h3 : ((prevPage s).2.1.currentPage.fdiv 2).toNat < (prevPage s).2.1.pages.length := by
      rw [fdiv_two, h.2.2.2.2.1, hwf, h.2.1]
      rw [h.2.1, h.2.2.2.1] at hacc2
      omega
    have hn := nextPage_accepted (prevPage s).2.1 h.2.2.1 hacc2 (by rw [h.2.1]; omega) h3
    rw [hn.2.1, h.2.1]
    omega

/-- C7 (witness): the round-trip evaluated on the fresh six-leaf book:
`nextPage` then `prevPage` lands back on `currentPage = 0`. -/
theorem C7_witness :
    (prevPage (nextPage (loadPages initialState demo6)).2.1).1 = true ∧
    (prevPage (nextPage (loadPages initialState demo6)).2.1).2.1.currentPage = 0 := by
  have h := (C7_advance_roundtrip (loadPages initialState demo6) (by decide) (by decide)
    (by decide) (by decide)).1 (by decide)
  exact ⟨h.1, h.2⟩

/-- C8: from any idle non-empty book at an in-range even position,
`goToPage` succeeds for every argument; the landing position is the
argument clamped into `[0, totalPages - 1]` then rounded down to
even — hence always even and in range; and calling it with either
leaf index of the current spread is a success with no state change
and no callback. -/
theorem C8_goto (s : FlipState) (p : Int)
    (hf : s.isFlipping = false) (hne : 1 ≤ s.totalPages)
    (heven : s.currentPage % 2 = 0) (h0 : 0 ≤ s.currentPage)
    (hlt : s.currentPage < s.totalPages) :
    (goToPage s p).1 = true ∧
    (goToPage s p).2.1.currentPage = (max 0 (min p (s.totalPages - 1))).fdiv 2 * 2 ∧
    (goToPage s p).2.1.currentPage % 2 = 0 ∧
    0 ≤ (goToPage s p).2.1.currentPage ∧
    (goToPage s p).2.1.currentPage ≤ s.totalPages - 1 ∧
    goToPage s s.currentPage = (true, s, []) ∧
    goToPage s (s.currentPage + 1) = (true, s, []) := by
  have hchar : ∀ q : Int, (goToPage s q).1 = true ∧
      (goToPage s q).2.1.currentPage = (max 0 (min q (s.totalPages - 1))).fdiv 2 * 2 := by
    intro q
    unfold goToPage
    rw [hf]
    simp only [Bool.false_eq_true, if_false]
    split
    · rename_i heq
      exact ⟨rfl, heq.symm⟩
    · exact ⟨rfl, rfl⟩
  have hself : ∀ q : Int, max 0 (min q (s.totalPages - 1)) = q → q.fdiv 2 * 2 = s.currentPage →
      goToPage s q = (true, s, []) := by
    intro q hq1 hq2
    unfold goToPage
    rw [hf]
    simp only [Bool.false_eq_true, if_false, hq1, hq2]
    simp
  refine ⟨(hchar p).1, (hchar p).2, ?_, ?_, ?_, ?_, ?_⟩
  · rw [(hchar p).2, fdiv_two]; omega
  · rw [(hchar p).2, fdiv_two]; omega
  · rw [(hchar p).2, fdiv_two]; omega
  · exact hself s.currentPage (by omega) (by rw [fdiv_two]; omega)
  · rcases lt_or_ge (s.currentPage + 1) s.totalPages with hc | hc
    · exact hself (s.currentPage + 1) (by omega) (by rw [fdiv_two]; omega)
    · have hcp : s.currentPage = s.totalPages - 1 := by omega
      unfold goToPage
      rw [hf]
      simp only [Bool.false_eq_true, if_false]
      have h1 : max 0 (min (s.currentPage + 1) (s.totalPages - 1)) = s.currentPage := by omega
      rw [h1]
      have h2 : s.currentPage.fdiv 2 * 2 = s.currentPage := by rw [fdiv_two]; omega
      rw [h2]
      simp

/-- C8 (witness): the statement evaluated on the fresh six-leaf book
with the odd target leaf 3, which clamps and rounds to leaf 2. -/
theorem C8_witness :
    (goToPage (loadPages initialState demo6) 3).1 = true ∧
    (goToPage (loadPages initialState demo6) 3).2.1.currentPage = 2 ∧
    goToPage (loadPages initialState demo6) 0 =
      (true, loadPages initialState demo6, []) := by
  have h := C8_goto (loadPages initialState demo6) 3 (by decide) (by decide) (by decide)
    (by decide) (by decide)
  exact ⟨h.1, h.2.1.trans (by decide), h.2.2.2.2.2.1⟩

/-- C9: for every active drag session (index parity and the dragged
spread's position consistent with the chosen direction), releasing
with `progress > 0.3` commits — `currentPage` moves by one spread
(±2 leaves), the dragged spread settles at the opposite rest angle and
the turn-ended callback fires — while releasing with
`progress ≤ 0.3` reverts — `currentPage` is unchanged, the dragged
spread settles back at its pre-drag rest angle and no callback
fires. -/
theorem C9_drag_threshold (s : FlipState) (idx : Int)
    (hd : s.isDragging = true)
    (hpi : s.dragPageIdx = some idx)
    (heven : s.currentPage % 2 = 0)
    (hidx0 : 0 ≤ idx) (hlen : idx.toNat < s.pages.length) :
    (s.dragProgress > 3 / 10 →
      (s.dragDirection = some Dir.next → idx = s.currentPage.fdiv 2 →
        (endDrag s).1.currentPage = s.currentPage + 2 ∧
        ((endDrag s).1.pages.get? idx.toNat).map Spread.rotation = some (-180) ∧
        (endDrag s).2 = [Event.flipStart s.currentPage (some Dir.next),
          Event.flipEnd (s.currentPage + 2) none]) ∧
      (s.dragDirection = some Dir.prev → idx = s.currentPage.fdiv 2 - 1 →
        (endDrag s).1.currentPage = s.currentPage - 2 ∧
        ((endDrag s).1.pages.get? idx.toNat).map Spread.rotation = some 0 ∧
        (endDrag s).2 = [Event.flipStart s.currentPage (some Dir.prev),
          Event.flipEnd (s.currentPage - 2) none])) ∧
    (s.dragProgress ≤ 3 / 10 →
      (endDrag s).1.currentPage = s.currentPage ∧
      (endDrag s).2 = [] ∧
      (s.dragDirection = some Dir.next → idx = s.currentPage.fdiv 2 →
        ((endDrag s).1.pages.get? idx.toNat).map Spread.rotation = some 0) ∧
      (s.dragDirection = some Dir.prev → idx = s.currentPage.fdiv 2 - 1 →
        ((endDrag s).1.pages.get? idx.toNat).map Spread.rotation = some (-180))) := by
  have hcast : ((idx.toNat : Int)) = idx := Int.toNat_of_nonneg hidx0
  constructor
  · intro hprog
    have hED : endDrag s = ({ (completeFlip s).1 with isDragging := false },
        (completeFlip s).2) := by
      unfold endDrag
      rw [hd, if_pos hprog]
      simp
    constructor
    · intro hdir hidx
      rw [hED]
      unfold completeFlip
      rw [hpi]
      simp only [hdir, Option.some.injEq, if_pos rfl, cleanupDragPage, updatePageVisibility]
      refine ⟨rfl, ?_, rfl⟩
      simp only [settleSpreads_get, if_true, if_false]
      obtain ⟨sp, hsp⟩ :
          ∃ x, (updateAt idx (fun sp => { sp with rotation := -180 }) 0 s.pages).get? idx.toNat
            = some x :=
        ⟨_, List.get?_eq_get (by rw [updateAt_length]; exact hlen)⟩
      rw [hsp]
      rw [fdiv_two] at hidx
      have e0 : ((0 : Int) + (idx.toNat : Int)) = idx := by omega
      have hA : (idx = (s.currentPage + 2).fdiv 2) = False :=
        eq_false (by simp only [fdiv_two]; omega)
      have hB : (idx < (s.currentPage + 2).fdiv 2) = True :=
        eq_true (by simp only [fdiv_two]; omega)
      simp only [e0, hA, hB, if_false, if_true]
      rfl
    · intro hdir hidx
      rw [hED]
      unfold completeFlip
      rw [hpi]
      simp only [hdir, Option.some.injEq, reduceCtorEq, if_neg, cleanupDragPage,
        updatePageVisibility]
      refine ⟨rfl, ?_, rfl⟩
      simp only [settleSpreads_get, if_true, if_false]
      obtain ⟨sp, hsp⟩ :
          ∃ x, (updateAt idx (fun sp => { sp with rotation := 0 }) 0 s.pages).get? idx.toNat
            = some x :=
        ⟨_, List.get?_eq_get (by rw [updateAt_length]; exact hlen)⟩
      rw [hsp]
      rw [fdiv_two] at hidx
      have e0 : ((0 : Int) + (idx.toNat : Int)) = idx := by omega
      have hA : (idx = (s.currentPage - 2).fdiv 2) = True :=
        eq_true (by simp only [fdiv_two]; omega)
      simp only [e0, hA, if_true]
      rfl
  · intro hprog
    have hED : endDrag s = ({ cancelFlip s with isDragging := false }, []) := by
      unfold endDrag
      rw [hd, if_neg (not_lt.mpr hprog)]
      simp
    refine ⟨?_, ?_, ?_, ?_⟩
    · rw [hED]
      unfold cancelFlip
      rw [hpi]
      split <;> rfl
    · rw [hED]
    · intro hdir hidx
      rw [hED]
      unfold cancelFlip
      rw [hpi]
      simp only [hdir, Option.some.injEq, if_pos rfl, cleanupDragPage, updatePageVisibility]
      simp only [settleSpreads_get, if_true, if_false]
      obtain ⟨sp, hsp⟩ :
          ∃ x, (updateAt idx (fun sp => { sp with rotation := 0 }) 0 s.pages).get? idx.toNat
            = some x :=
        ⟨_, List.get?_eq_get (by rw [updateAt_length]; exact hlen)⟩
      rw [hsp]
      have e0 : ((0 : Int) + (idx.toNat : Int)) = idx := by omega
      have hA : (idx = s.currentPage.fdiv 2) = True := eq_true hidx
      simp only [e0, hA, if_true]
      rfl
    · intro hdir hidx
      rw [hED]
      unfold cancelFlip
      rw [hpi]
      simp only [hdir, Option.some.injEq, reduceCtorEq, if_neg, cleanupDragPage,
        updatePageVisibility]
      simp only [settleSpreads_get, if_true, if_false]
      obtain ⟨sp, hsp⟩ :
          ∃ x, (updateAt idx (fun sp => { sp with rotation := -180 }) 0 s.pages).get? idx.toNat
            = some x :=
        ⟨_, List.get?_eq_get (by rw [updateAt_length]; exact hlen)⟩
      rw [hsp]
      rw [fdiv_two] at hidx
      have e0 : ((0 : Int) + (idx.toNat : Int)) = idx := by omega
      have hA : (idx = s.currentPage.fdiv 2) = False :=
        eq_false (by simp only [fdiv_two]; omega)
      have hB : (idx < s.currentPage.fdiv 2) = True :=
        eq_true (by simp only [fdiv_two]; omega)
      simp only [e0, hA, hB, if_false, if_true]
      rfl

/-- A concrete mid-drag state: six-leaf book, pointer down at
`x = 90` of a 100-wide surface (right zone → forward), dragged to
`x = 50`, giving `progress = 40/50 = 4/5`. -/
def dragDemoCommit : FlipState :=
  handlePointerMove (handlePointerDown (loadPages initialState demo6) 90 50 100 100)
    50 50 100 100

/-- C9 (witness): releasing the concrete `4/5`-progress forward drag
commits: `currentPage` goes 0 → 2 and the dragged spread settles at
`-180°`. -/
theorem C9_witness :
    (endDrag dragDemoCommit).1.currentPage = 2 ∧
    ((endDrag dragDemoCommit).1.pages.get? (0 : Int).toNat).map Spread.rotation
      = some (-180) := by
  have hd : dragDemoCommit.isDragging = true := by
    norm_num [dragDemoCommit, handlePointerMove, handlePointerDown, startDrag, updateDrag,
      applyCurlEffect, getFlippingPage, loadPages, initialState, demo6, mkSpreads,
      updatePageVisibility, settleSpreads, jsGet, truthyOrNull, PageContent.truthy, updateAt,
      Int.fdiv]
  have hpi : dragDemoCommit.dragPageIdx = some 0 := by
    norm_num [dragDemoCommit, handlePointerMove, handlePointerDown, startDrag, updateDrag,
      applyCurlEffect, getFlippingPage, loadPages, initialState, demo6, mkSpreads,
      updatePageVisibility, settleSpreads, jsGet, truthyOrNull, PageContent.truthy, updateAt,
      Int.fdiv]
  have heven : dragDemoCommit.currentPage % 2 = 0 := by
    norm_num [dragDemoCommit, handlePointerMove, handlePointerDown, startDrag, updateDrag,
      applyCurlEffect, getFlippingPage, loadPages, initialState, demo6, mkSpreads,
      updatePageVisibility, settleSpreads, jsGet, truthyOrNull, PageContent.truthy, updateAt,
      Int.fdiv]
  have hlen : (0 : Int).toNat < dragDemoCommit.pages.length := by
    norm_num [dragDemoCommit, handlePointerMove, handlePointerDown, startDrag, updateDrag,
      applyCurlEffect, getFlippingPage, loadPages, initialState, demo6, mkSpreads,
      updatePageVisibility, settleSpreads, jsGet, truthyOrNull, PageContent.truthy, updateAt,
      Int.fdiv]
  have hprog : dragDemoCommit.dragProgress > 3 / 10 := by
    norm_num [dragDemoCommit, handlePointerMove, handlePointerDown, startDrag, updateDrag,
      applyCurlEffect, getFlippingPage, loadPages, initialState, demo6, mkSpreads,
      updatePageVisibility, settleSpreads, jsGet, truthyOrNull, PageContent.truthy, updateAt,
      Int.fdiv]
  have hdir : dragDemoCommit.dragDirection = some Dir.next := by
    norm_num [dragDemoCommit, handlePointerMove, handlePointerDown, startDrag, updateDrag,
      applyCurlEffect, getFlippingPage, loadPages, initialState, demo6, mkSpreads,
      updatePageVisibility, settleSpreads, jsGet, truthyOrNull, PageContent.truthy, updateAt,
      Int.fdiv]
  have hidx : (0 : Int) = dragDemoCommit.currentPage.fdiv 2 := by
    norm_num [dragDemoCommit, handlePointerMove, handlePointerDown, startDrag, updateDrag,
      applyCurlEffect, getFlippingPage, loadPages, initialState, demo6, mkSpreads,
      updatePageVisibility, settleSpreads, jsGet, truthyOrNull, PageContent.truthy, updateAt,
      Int.fdiv]
  have h := ((C9_drag_threshold dragDemoCommit 0 hd hpi heven (by decide) hlen).1 hprog).1
    hdir hidx
  refine ⟨?_, h.2.1⟩
  rw [h.1]
  norm_num [dragDemoCommit, handlePointerMove, handlePointerDown, startDrag, updateDrag,
    applyCurlEffect, getFlippingPage, loadPages, initialState, demo6, mkSpreads,
    updatePageVisibility, settleSpreads, jsGet, truthyOrNull, PageContent.truthy, updateAt,
    Int.fdiv]

/-- An externally triggerable operation of the claim: a content load,
a discrete navigation call, a goto, or one whole pointer gesture
(down at `(x, y)` on a `w × h` surface, a list of moves, then up). -/
inductive Op where
  | load (c : List PageContent)
  | next
  | prev
  | goto (p : Int)
  | drag (x y w h : ℚ) (moves : List (ℚ × ℚ))

/-- Run one operation against the engine, keeping the resulting
state. -/
def stepOp (s : FlipState) : Op → FlipState
  | Op.load c => loadPages s c
  | Op.next => (nextPage s).2.1
  | Op.prev => (prevPage s).2.1
  | Op.goto p => (goToPage s p).2.1
  | Op.drag x y w h moves =>
      (handlePointerUp (moves.foldl (fun st m => handlePointerMove st m.1 m.2 w h)
        (handlePointerDown s x y w h))).1

/-- Run a sequence of operations on a freshly constructed engine. -/
def runOps (ops : List Op) : FlipState := ops.foldl stepOp initialState

/-- The between-operations invariant: non-negative even `currentPage`
and no gesture in flight. -/
def EngineInv (s : FlipState) : Prop :=
  0 ≤ s.currentPage ∧ s.currentPage % 2 = 0 ∧ s.isDragging = false

/-- The invariant holding also in the middle of a gesture: when a
drag is active, its direction is forward, or there is room to go one
spread back. -/
def GestureInv (s : FlipState) : Prop :=
  0 ≤ s.currentPage ∧ s.currentPage % 2 = 0 ∧
    (s.isDragging = true → (s.dragDirection = some Dir.next ∨ 2 ≤ s.currentPage))

lemma nextPage_fields (s : FlipState) :
    (nextPage s).2.1.isDragging = s.isDragging ∧
    ((nextPage s).2.1.currentPage = s.currentPage ∨
      (nextPage s).2.1.currentPage = s.currentPage + 2) := by
  unfold nextPage
  split
  · exact ⟨rfl, Or.inl rfl⟩
  · dsimp only
    cases hj : jsGet s.pages (s.currentPage.fdiv 2) with
    | none => exact ⟨rfl, Or.inl rfl⟩
    | some sp => exact ⟨rfl, Or.inr rfl⟩

lemma prevPage_fields (s : FlipState) :
    (prevPage s).2.1.isDragging = s.isDragging ∧
    ((prevPage s).2.1.currentPage = s.currentPage ∨
      (0 < s.currentPage ∧ (prevPage s).2.1.currentPage = s.currentPage - 2)) := by
  unfold prevPage
  split
  · exact ⟨rfl, Or.inl rfl⟩
  · rename_i hcond
    have hpos : 0 < s.currentPage := by
      by_contra hb
      push_neg at hb
      exact hcond (Or.inr hb)
    dsimp only
    cases hj : jsGet s.pages ((s.currentPage - 2).fdiv 2) with
    | none => exact ⟨rfl, Or.inr ⟨hpos, rfl⟩⟩
    | some sp => exact ⟨rfl, Or.inr ⟨hpos, rfl⟩⟩

lemma goToPage_fields (s : FlipState) (p : Int) :
    (goToPage s p).2.1.isDragging = s.isDragging ∧
    ((goToPage s p).2.1.currentPage = s.currentPage ∨
      (0 ≤ (goToPage s p).2.1.currentPage ∧ (goToPage s p).2.1.currentPage % 2 = 0)) := by
  unfold goToPage
  split
  · exact ⟨rfl, Or.inl rfl⟩
  · dsimp only
    split
    · exact ⟨rfl, Or.inl rfl⟩
    · refine ⟨rfl, Or.inr ⟨?_, ?_⟩⟩
      · show 0 ≤ (max 0 (min p (s.totalPages - 1))).fdiv 2 * 2
        rw [fdiv_two]
        omega
      · show ((max 0 (min p (s.totalPages - 1))).fdiv 2 * 2) % 2 = 0
        rw [fdiv_two]
        omega

lemma startDrag_cases (s : FlipState) (x y w h : ℚ)
    (heven : s.currentPage % 2 = 0) :
    (startDrag s x y w h).currentPage = s.currentPage ∧
    ((startDrag s x y w h).isDragging = s.isDragging ∨
      ((startDrag s x y w h).isDragging = true ∧
        ((startDrag s x y w h).dragDirection = some Dir.next ∨
          2 ≤ (startDrag s x y w h).currentPage))) := by
  unfold startDrag
  by_cases hc1 : x > w * (6 / 10 : ℚ) ∧ s.currentPage < s.totalPages - 2
  · rw [if_pos hc1]
    dsimp only
    by_cases hj : (jsGet s.pages (getFlippingPage s Dir.next)).isSome
    · rw [if_pos hj]
      exact ⟨rfl, Or.inr ⟨rfl, Or.inl rfl⟩⟩
    · rw [if_neg hj]
      exact ⟨rfl, Or.inl rfl⟩
  · rw [if_neg hc1]
    by_cases hc2 : x < w * (4 / 10 : ℚ) ∧ s.currentPage > 0
    · rw [if_pos hc2]
      dsimp only
      by_cases hj : (jsGet s.pages (getFlippingPage s Dir.prev)).isSome
      · rw [if_pos hj]
        refine ⟨rfl, Or.inr ⟨rfl, Or.inr ?_⟩⟩
        show 2 ≤ s.currentPage
        omega
      · rw [if_neg hj]
        exact ⟨rfl, Or.inl rfl⟩
    · rw [if_neg hc2]
      exact ⟨rfl, Or.inl rfl⟩

lemma updateDrag_fields (s : FlipState) (x y w h : ℚ) :
    (updateDrag s x y w h).currentPage = s.currentPage ∧
    (updateDrag s x y w h).isDragging = s.isDragging ∧
    (updateDrag s x y w h).dragDirection = s.dragDirection := by
  cases hj : s.dragPageIdx with
  | none => simp [updateDrag, applyCurlEffect, hj]
  | some idx => simp [updateDrag, applyCurlEffect, hj]

lemma handlePointerDown_inv (s : FlipState) (x y w h : ℚ) (he : EngineInv s) :
    GestureInv (handlePointerDown s x y w h) := by
  unfold handlePointerDown
  split
  · refine ⟨he.1, he.2.1, fun hd => ?_⟩
    rw [he.2.2] at hd
    exact absurd hd (by simp)
  · obtain ⟨hcp, hcase⟩ := startDrag_cases s x y w h he.2.1
    rcases hcase with h1 | ⟨h1, h2⟩
    · refine ⟨?_, ?_, fun hd => ?_⟩
      · rw [hcp]; exact he.1
      · rw [hcp]; exact he.2.1
      · rw [h1, he.2.2] at hd
        exact absurd hd (by simp)
    · refine ⟨?_, ?_, fun _ => h2⟩
      · rw [hcp]; exact he.1
      · rw [hcp]; exact he.2.1

lemma handlePointerMove_inv (s : FlipState) (x y w h : ℚ) (hg : GestureInv s) :
    GestureInv (handlePointerMove s x y w h) := by
  unfold handlePointerMove
  split
  · exact hg
  · obtain ⟨f1, f2, f3⟩ := updateDrag_fields s x y w h
    refine ⟨?_, ?_, fun hd => ?_⟩
    · rw [f1]; exact hg.1
    · rw [f1]; exact hg.2.1
    · rw [f3]
      rw [f2] at hd
      rw [f1]
      exact hg.2.2 hd

lemma completeFlip_cp (s : FlipState) :
    (completeFlip s).1.currentPage = s.currentPage ∨
    ((s.dragDirection = some Dir.next ∧
        (completeFlip s).1.currentPage = s.currentPage + 2) ∨
      (¬ s.dragDirection = some Dir.next ∧
        (completeFlip s).1.currentPage = s.currentPage - 2)) := by
  unfold completeFlip
  cases hpi : s.dragPageIdx with
  | none => exact Or.inl rfl
  | some idx =>
    dsimp only
    by_cases hdn : s.dragDirection = some Dir.next
    · rw [if_pos hdn]
      exact Or.inr (Or.inl ⟨hdn, rfl⟩)
    · rw [if_neg hdn]
      exact Or.inr (Or.inr ⟨hdn, rfl⟩)

lemma cancelFlip_cp (s : FlipState) : (cancelFlip s).currentPage = s.currentPage := by
  unfold cancelFlip
  cases hpi : s.dragPageIdx with
  | none => rfl
  | some idx => rfl

lemma handlePointerUp_inv (s : FlipState) (hg : GestureInv s) :
    EngineInv (handlePointerUp s).1 := by
  obtain ⟨h0, he, himp⟩ := hg
  unfold handlePointerUp
  by_cases hd : s.isDragging = false
  · rw [if_pos hd]
    exact ⟨h0, he, hd⟩
  · rw [if_neg hd]
    have hdt : s.isDragging = true := by revert hd; cases s.isDragging <;> simp
    have hdir := himp hdt
    unfold endDrag
    rw [if_neg hd]
    split
    · refine ⟨?_, ?_, rfl⟩
      · show 0 ≤ (completeFlip s).1.currentPage
        rcases completeFlip_cp s with hcp | ⟨_, hcp⟩ | ⟨hnn, hcp⟩
        · rw [hcp]; exact h0
        · rw [hcp]; omega
        · rw [hcp]
          rcases hdir with hx | hx
          · exact absurd hx hnn
          · omega
      · show (completeFlip s).1.currentPage % 2 = 0
        rcases completeFlip_cp s with hcp | ⟨_, hcp⟩ | ⟨hnn, hcp⟩
        · rw [hcp]; exact he
        · rw [hcp]; omega
        · rw [hcp]; omega
    · refine ⟨?_, ?_, rfl⟩
      · show 0 ≤ (cancelFlip s).currentPage
        rw [cancelFlip_cp]; exact h0
      · show (cancelFlip s).currentPage % 2 = 0
        rw [cancelFlip_cp]; exact he

lemma stepOp_inv (s : FlipState) (op : Op) (h : EngineInv s) : EngineInv (stepOp s op) := by
  obtain ⟨h0, he, hd⟩ := h
  cases op with
  | load c => exact ⟨h0, he, hd⟩
  | next =>
    show EngineInv ((nextPage s).2.1)
    obtain ⟨f1, f2⟩ := nextPage_fields s
    refine ⟨?_, ?_, f1.trans hd⟩
    · rcases f2 with h1 | h1 <;> rw [h1] <;> omega
    · rcases f2 with h1 | h1 <;> rw [h1] <;> omega
  | prev =>
    show EngineInv ((prevPage s).2.1)
    obtain ⟨f1, f2⟩ := prevPage_fields s
    refine ⟨?_, ?_, f1.trans hd⟩
    · rcases f2 with h1 | ⟨hpos, h1⟩ <;> rw [h1] <;> omega
    · rcases f2 with h1 | ⟨hpos, h1⟩ <;> rw [h1] <;> omega
  | goto p =>
    show EngineInv ((goToPage s p).2.1)
    obtain ⟨f1, f2⟩ := goToPage_fields s p
    refine ⟨?_, ?_, f1.trans hd⟩
    · rcases f2 with h1 | ⟨h1, _⟩
      · rw [h1]; omega
      · exact h1
    · rcases f2 with h1 | ⟨_, h1⟩
      · rw [h1]; omega
      · exact h1
  | drag x y w hh moves =>
    have h1 := handlePointerDown_inv s x y w hh ⟨h0, he, hd⟩
    have h2 : GestureInv (moves.foldl (fun st m => handlePointerMove st m.1 m.2 w hh)
        (handlePointerDown s x y w hh)) := by
      generalize handlePointerDown s x y w hh = t at h1 ⊢
      induction moves generalizing t with
      | nil => exact h1
      | cons m rest ih => exact ih _ (handlePointerMove_inv t m.1 m.2 w hh h1)
    exact handlePointerUp_inv _ h2

/-- C10: after any sequence of operations on a freshly constructed
engine — content loads, accepted or rejected `nextPage` / `prevPage` /
`goToPage` calls, and whole (committed or reverted) drag gestures —
`currentPage` is a non-negative even integer, so the spread index
`Math.floor(currentPage / 2)` is exact: doubling it recovers
`currentPage` with no rounding loss. -/
theorem C10_even_invariant (ops : List Op) :
    0 ≤ (runOps ops).currentPage ∧
    (runOps ops).currentPage % 2 = 0 ∧
    (runOps ops).currentPage.fdiv 2 * 2 = (runOps ops).currentPage := by
  have h : EngineInv (runOps ops) := by
    unfold runOps
    have h0 : EngineInv initialState := ⟨by decide, by decide, rfl⟩
    generalize initialState = s at h0 ⊢
    induction ops generalizing s with
    | nil => exact h0
    | cons op rest ih => exact ih (stepOp s op) (stepOp_inv s op h0)
  obtain ⟨h1, h2, _⟩ := h
  refine ⟨h1, h2, ?_⟩
  rw [fdiv_two]
  omega
